import Mathlib

/-!
Verification of the NYC taxi dashboard pipeline (`app.py`): schema
normalization (`load_trip_data`), the filter engine (`apply_filters`),
the five aggregators, and the seeded down-sampling used by the
distance-distribution view.  Dataframes are embedded as Lean lists of
records; pandas boolean-mask filtering becomes `List.filter`, `groupby`
becomes key-dedup-plus-count with the ascending key sort pandas applies,
and `merge(..., how="left")` becomes an explicit left join.
-/

namespace TaxiDashboard

/-- A timezone-naive instant, split into the calendar date (as a day
ordinal) and the time within the day, mirroring what `.dt.date` extracts
from a pandas datetime column. -/
structure Datetime where
  date : Int
  minuteOfDay : Nat
deriving DecidableEq

/-- One row of the cleaned parquet file before `load_trip_data` adds
`payment_label`.  The cleaned data already carries `pickup_hour` and
`pickup_day_of_week` columns (produced upstream of `app.py`); the
timestamp columns are already datetime-valued, so `pd.to_datetime` on
them is the identity. -/
structure RawTrip where
  tpep_pickup_datetime : Datetime
  tpep_dropoff_datetime : Datetime
  payment_type : Int
  PULocationID : Int
  fare_amount : Rat
  total_amount : Rat
  trip_distance : Rat
  trip_duration_minutes : Rat
  pickup_hour : Nat
  pickup_day_of_week : String
deriving DecidableEq

/-- A normalized trip row: the raw row augmented with the derived
`payment_label` column added by `load_trip_data`. -/
structure TripRecord extends RawTrip where
  payment_label : String
deriving DecidableEq

/-- One row of the zone lookup CSV (`taxi_zone_lookup.csv`). -/
structure ZoneRow where
  LocationID : Int
  zone_name : String
  Borough : String
deriving DecidableEq

/-- The raw trip frame handed to `load_trip_data`: its rows, plus flags
recording which of the three columns the function accesses are present
(pandas raises a `KeyError` at the frame level when a column is
missing). -/
structure RawFrame where
  hasPickupCol : Bool
  hasDropoffCol : Bool
  hasPaymentCol : Bool
  rows : List RawTrip
deriving DecidableEq

/-- The failure mode of `load_trip_data`: a required raw column is
absent from the frame (a pandas `KeyError`; the design calls this a
schema error). -/
inductive SchemaError where
  | missingColumn (col : String)
deriving DecidableEq

/-- The fixed payment-code lookup table (`PAYMENT_MAP` in `app.py`). -/
def PAYMENT_MAP : List (Int × String) :=
  [(1, "Credit Card"), (2, "Cash"), (3, "No Charge"), (4, "Dispute"),
   (0, "Unknown"), (6, "Voided Trip")]

/-- `df["payment_type"].map(PAYMENT_MAP).fillna("Other")`, per code:
look the code up in the fixed table, falling back to `"Other"` for any
unmapped code. -/
def payment_label_of (code : Int) : String :=
  (PAYMENT_MAP.lookup code).getD "Other"

/-- `load_trip_data`: checks the two timestamp columns (accessed by
`pd.to_datetime`, identity on the already-datetime columns) and the
`payment_type` column, failing with a missing-column error if one is
absent, and otherwise returns the rows augmented with
`payment_label`. -/
def load_trip_data (f : RawFrame) : Except SchemaError (List TripRecord) :=
  if !f.hasPickupCol then .error (.missingColumn "tpep_pickup_datetime")
  else if !f.hasDropoffCol then .error (.missingColumn "tpep_dropoff_datetime")
  else if !f.hasPaymentCol then .error (.missingColumn "payment_type")
  else .ok (f.rows.map fun r =>
    { toRawTrip := r, payment_label := payment_label_of r.payment_type })

/-- The boolean mask built by `apply_filters`, evaluated per row: date
window and hour window, and — only when the `payment_types` list is
non-empty (Python truthiness of a list) — membership of the row's
`payment_label` in it. -/
def apply_mask (start_date end_date : Int) (hour_min hour_max : Nat)
    (payment_types : List String) (r : TripRecord) : Bool :=
  let mask :=
    decide (start_date ≤ r.tpep_pickup_datetime.date) &&
    decide (r.tpep_pickup_datetime.date ≤ end_date) &&
    decide (hour_min ≤ r.pickup_hour) &&
    decide (r.pickup_hour ≤ hour_max)
  if payment_types.isEmpty then mask
  else mask && payment_types.contains r.payment_label

/-- `apply_filters`: `df[mask]` keeps, in order, exactly the rows whose
mask entry is true. -/
def apply_filters (df : List TripRecord) (start_date end_date : Int)
    (hour_min hour_max : Nat) (payment_types : List String) : List TripRecord :=
  df.filter (apply_mask start_date end_date hour_min hour_max payment_types)

/-- The filter predicate in the spec's words (§3): pickup calendar date
in `[start_date, end_date]`, `pickup_hour` in `[hour_min, hour_max]`,
and `payment_labels` empty or containing the row's label.  Stated from
the spec, to be compared with `apply_mask` from the code. -/
def passesFilter (start_date end_date : Int) (hour_min hour_max : Nat)
    (payment_labels : List String) (r : TripRecord) : Prop :=
  start_date ≤ r.tpep_pickup_datetime.date ∧
  r.tpep_pickup_datetime.date ≤ end_date ∧
  hour_min ≤ r.pickup_hour ∧
  r.pickup_hour ≤ hour_max ∧
  (payment_labels = [] ∨ r.payment_label ∈ payment_labels)

instance (s e : Int) (h1 h2 : Nat) (pl : List String) (r : TripRecord) :
    Decidable (passesFilter s e h1 h2 pl r) := by
  unfold passesFilter; infer_instance

/-- The full set of payment labels present in a normalized trip set
(what `df_full["payment_label"].unique()` collects). -/
def labelsPresent (df : List TripRecord) : List String :=
  (df.map TripRecord.payment_label).dedup

/-- Stable insertion used by `sortBy`: place `a` before the first
element it is `le`-related to. -/
def insertLe (le : α → α → Bool) (a : α) : List α → List α
  | [] => [a]
  | b :: bs => if le a b then a :: b :: bs else b :: insertLe le a bs

/-- Stable insertion sort: the embedding of pandas' key-ordered
`groupby` output, `sort_values`, and the ordering inside `nlargest`. -/
def sortBy (le : α → α → Bool) : List α → List α
  | [] => []
  | a :: as => insertLe le a (sortBy le as)

/-- The distinct grouping keys a pandas `groupby` emits, in its sorted
key order. -/
def groupKeys [DecidableEq α] (le : α → α → Bool) (ks : List α) : List α :=
  sortBy le ks.dedup

/-- `df.groupby("PULocationID").size().reset_index(name="trip_count")`:
one row per distinct pickup location id, with the number of trips at
that id. -/
def zone_counts (df : List TripRecord) : List (Int × Nat) :=
  (groupKeys (fun a b => decide (a ≤ b)) (df.map fun r => r.PULocationID)).map
    fun k => (k, df.countP fun r => r.PULocationID == k)

/-- A row of the left join inside `agg_top_zones`, before the final
column selection drops `PULocationID`. -/
structure MergedZoneCount where
  PULocationID : Int
  trip_count : Nat
  zone_name : Option String
  Borough : Option String
deriving DecidableEq

/-- `zone_counts.merge(zones[["LocationID", "Zone", "Borough"]],
left_on="PULocationID", right_on="LocationID", how="left")`: each count
row paired with every matching zone row, or with nulls when no zone
matches. -/
def merge_left (zc : List (Int × Nat)) (zones : List ZoneRow) :
    List MergedZoneCount :=
  zc.flatMap fun kn =>
    match zones.filter (fun z => z.LocationID == kn.1) with
    | [] => [⟨kn.1, kn.2, none, none⟩]
    | ms => ms.map fun z => ⟨kn.1, kn.2, some z.zone_name, some z.Borough⟩

/-- `merged.nlargest(10, "trip_count")`: the ten largest rows by
`trip_count`, in descending order. -/
def nlargest10 (l : List MergedZoneCount) : List MergedZoneCount :=
  (sortBy (fun a b => decide (b.trip_count ≤ a.trip_count)) l).take 10

/-- `agg_top_zones`: count trips per pickup location, left-join the
zone lookup, keep the ten largest counts, and select the
`Zone`/`Borough`/`trip_count` columns. -/
def agg_top_zones (df : List TripRecord) (zones : List ZoneRow) :
    List (Option String × Option String × Nat) :=
  (nlargest10 (merge_left (zone_counts df) zones)).map
    fun m => (m.zone_name, m.Borough, m.trip_count)

/-- `agg_fare_by_hour`:
`df.groupby("pickup_hour")["fare_amount"].mean()` renamed to `avg_fare`
and sorted by `pickup_hour`: one row per distinct hour present, with
the mean fare over that hour's trips. -/
def agg_fare_by_hour (df : List TripRecord) : List (Nat × Rat) :=
  sortBy (fun a b => decide (a.1 ≤ b.1))
    ((groupKeys (fun a b => decide (a ≤ b)) (df.map fun r => r.pickup_hour)).map
      fun h =>
        (h, ((df.filter fun r => r.pickup_hour == h).map fun r => r.fare_amount).sum /
            ((df.filter fun r => r.pickup_hour == h).length : Rat)))

/-- `agg_payment_types`: `df.groupby("payment_label").size()` sorted by
`trip_count` descending. -/
def agg_payment_types (df : List TripRecord) : List (String × Nat) :=
  sortBy (fun a b => decide (b.2 ≤ a.2))
    ((groupKeys (fun a b => decide (a ≤ b)) (df.map fun r => r.payment_label)).map
      fun l => (l, df.countP fun r => r.payment_label == l))

/-- `agg_heatmap`:
`df.groupby(["pickup_day_of_week", "pickup_hour"]).size()`, keys in
pandas' lexicographic group order. -/
def agg_heatmap (df : List TripRecord) : List ((String × Nat) × Nat) :=
  (groupKeys
      (fun a b => decide (a.1 < b.1) || (decide (a.1 = b.1) && decide (a.2 ≤ b.2)))
      (df.map fun r => (r.pickup_day_of_week, r.pickup_hour))).map
    fun k => (k, df.countP fun r => (r.pickup_day_of_week, r.pickup_hour) == k)

/-- One step of the pseudo-random generator standing in for the seeded
generator behind `df.sample(..., random_state=42)`.  The particular
stream is abstracted; the embedding preserves the seeded contract: the
draws are a pure function of the seed. -/
def lcgNext (s : Nat) : Nat :=
  (6364136223846793005 * s + 1442695040888963407) % (2 ^ 64)

/-- Draw `n` rows without replacement: repeatedly pick a
generator-chosen index and remove that row. -/
def sampleGo (seed : Nat) : Nat → List α → List α
  | 0, _ => []
  | _ + 1, [] => []
  | n + 1, x :: xs =>
    let s := lcgNext seed
    let i := s % (x :: xs).length
    (x :: xs).get ⟨i, Nat.mod_lt _ (Nat.succ_pos _)⟩ ::
      sampleGo s n ((x :: xs).eraseIdx i)

/-- `df.sample(n=n, random_state=seed)`: `n` rows drawn without
replacement, deterministically from the seed. -/
def df_sample (seed n : Nat) (xs : List α) : List α := sampleGo seed n xs

/-- Lines 253-254 of `app.py`: `sample_size = min(200_000, len(df))`
followed by `df.sample(n=sample_size, random_state=42)` — the view the
distance-distribution histogram consumes. -/
def distance_sample (df : List TripRecord) : List TripRecord :=
  df_sample 42 (min 200000 df.length) df

/-- What `main` produces after applying the filters: either the
"No data matches the current filters" warning followed by `st.stop()`,
or the five summary tables the charts consume. -/
inductive DashboardOutcome where
  | noData
  | rendered (topZones : List (Option String × Option String × Nat))
      (fareByHour : List (Nat × Rat)) (distanceView : List TripRecord)
      (paymentCounts : List (String × Nat))
      (heatmap : List ((String × Nat) × Nat))
deriving DecidableEq

/-- The query half of `main`: apply the sidebar filters; if the result
is empty, warn and stop before any aggregator runs; otherwise compute
the five aggregations. -/
def run_dashboard (df_full : List TripRecord) (zones : List ZoneRow)
    (start_date end_date : Int) (hour_min hour_max : Nat)
    (payment_types : List String) : DashboardOutcome :=
  let df := apply_filters df_full start_date end_date hour_min hour_max payment_types
  if df.isEmpty then .noData
  else .rendered (agg_top_zones df zones) (agg_fare_by_hour df)
    (distance_sample df) (agg_payment_types df) (agg_heatmap df)

theorem apply_mask_iff (s e : Int) (h1 h2 : Nat) (pl : List String) (r : TripRecord) :
    apply_mask s e h1 h2 pl r = true ↔ passesFilter s e h1 h2 pl r := by
  unfold apply_mask passesFilter
  rcases hpl : pl with _ | ⟨a, as⟩ <;>
    simp [List.isEmpty_iff, and_assoc]

theorem apply_mask_eq_decide (s e : Int) (h1 h2 : Nat) (pl : List String)
    (r : TripRecord) :
    apply_mask s e h1 h2 pl r = decide (passesFilter s e h1 h2 pl r) := by
  by_cases h : passesFilter s e h1 h2 pl r
  · simp [h, (apply_mask_iff s e h1 h2 pl r).mpr h]
  · have hm : ¬ apply_mask s e h1 h2 pl r = true :=
      fun hc => h ((apply_mask_iff s e h1 h2 pl r).mp hc)
    simp [h, Bool.eq_false_iff.mpr hm]

theorem insertLe_perm (le : α → α → Bool) (a : α) (l : List α) :
    (insertLe le a l).Perm (a :: l) := by
  induction l with
  | nil => simp [insertLe]
  | cons b bs ih =>
    unfold insertLe
    by_cases h : le a b
    · simp [h]
    · simp only [if_neg h]
      exact (ih.cons b).trans (List.Perm.swap a b bs)

theorem sortBy_perm (le : α → α → Bool) (l : List α) :
    (sortBy le l).Perm l := by
  induction l with
  | nil => simp [sortBy]
  | cons a as ih => exact (insertLe_perm le a (sortBy le as)).trans (ih.cons a)

theorem insertLe_pairwise (le : α → α → Bool)
    (htrans : ∀ a b c, le a b = true → le b c = true → le a c = true)
    (htot : ∀ a b, le a b = true ∨ le b a = true) (a : α) (l : List α)
    (hl : l.Pairwise fun x y => le x y = true) :
    (insertLe le a l).Pairwise fun x y => le x y = true := by
  induction l with
  | nil => simp [insertLe]
  | cons b bs ih =>
    rcases List.pairwise_cons.mp hl with ⟨hb, hbs⟩
    unfold insertLe
    by_cases h : le a b
    · simp only [if_pos h]
      refine List.pairwise_cons.mpr ⟨?_, hl⟩
      intro x hx
      rcases List.mem_cons.mp hx with rfl | hx2
      · exact h
      · exact htrans a b x h (hb x hx2)
    · simp only [if_neg h]
      have hba : le b a = true := (htot a b).resolve_left h
      refine List.pairwise_cons.mpr ⟨?_, ih hbs⟩
      intro x hx
      rcases List.mem_cons.mp ((insertLe_perm le a bs).mem_iff.mp hx) with rfl | hx2
      · exact hba
      · exact hb x hx2

theorem sortBy_pairwise (le : α → α → Bool)
    (htrans : ∀ a b c, le a b = true → le b c = true → le a c = true)
    (htot : ∀ a b, le a b = true ∨ le b a = true) (l : List α) :
    (sortBy le l).Pairwise fun x y => le x y = true := by
  induction l with
  | nil => simp [sortBy]
  | cons a as ih => exact insertLe_pairwise le htrans htot a (sortBy le as) ih

theorem perm_get_cons_eraseIdx (l : List α) (i : Nat) (h : i < l.length) :
    l.Perm (l.get ⟨i, h⟩ :: l.eraseIdx i) := by
  rw [List.eraseIdx_eq_take_drop_succ]
  conv_lhs => rw [← List.take_append_drop i l, List.drop_eq_getElem_cons h]
  exact List.perm_middle

theorem sampleGo_length (n : Nat) :
    ∀ (seed : Nat) (xs : List α), (sampleGo seed n xs).length = min n xs.length := by
  induction n with
  | zero => intro seed xs; simp [sampleGo]
  | succ n ih =>
    intro seed xs
    match xs with
    | [] => simp [sampleGo]
    | x :: xs =>
      simp only [sampleGo, List.length_cons]
      rw [ih]
      rw [List.length_eraseIdx]
      have hm : lcgNext seed % (xs.length + 1) < xs.length + 1 :=
        Nat.mod_lt _ (Nat.succ_pos _)
      simp only [List.length_cons, if_pos hm]
      omega

theorem subperm_cons_get_erase (xs : List α) (i : Nat) (h : i < xs.length)
    (t : List α) (ht : t.Subperm (xs.eraseIdx i)) :
    (xs.get ⟨i, h⟩ :: t).Subperm xs :=
  ((List.subperm_cons _).mpr ht).trans
    (perm_get_cons_eraseIdx xs i h).symm.subperm

theorem perm_cons_get_erase (xs : List α) (i : Nat) (h : i < xs.length)
    (t : List α) (ht : t.Perm (xs.eraseIdx i)) :
    (xs.get ⟨i, h⟩ :: t).Perm xs :=
  (ht.cons _).trans (perm_get_cons_eraseIdx xs i h).symm

theorem sampleGo_subperm (n : Nat) :
    ∀ (seed : Nat) (xs : List α), (sampleGo seed n xs).Subperm xs := by
  induction n with
  | zero => intro seed xs; exact List.nil_subperm
  | succ n ih =>
    intro seed xs
    match xs with
    | [] => exact List.nil_subperm
    | x :: xs =>
      simp only [sampleGo]
      exact subperm_cons_get_erase _ _ _ _ (ih _ _)

theorem sampleGo_perm_of_length (n : Nat) :
    ∀ (seed : Nat) (xs : List α), xs.length = n → (sampleGo seed n xs).Perm xs := by
  induction n with
  | zero =>
    intro seed xs hx
    rw [List.length_eq_zero.mp hx]
    simp [sampleGo]
  | succ n ih =>
    intro seed xs hx
    match xs with
    | [] => simp at hx
    | x :: xs =>
      simp only [sampleGo]
      refine perm_cons_get_erase _ _ _ _ (ih _ _ ?_)
      have hlt : lcgNext seed % (x :: xs).length < (x :: xs).length :=
        Nat.mod_lt _ (Nat.succ_pos _)
      rw [List.length_eraseIdx, if_pos hlt]
      simpa using congrArg (fun m => m - 1) hx

/-- C1: for every normalized trip set, criteria and record, the record
appears in the output of `apply_filters` iff its pickup calendar date
lies in `[start_date, end_date]`, its `pickup_hour` lies in
`[hour_min, hour_max]`, and `payment_labels` is empty or contains its
`payment_label`; the output is the subsequence of passing records in
original relative order (it equals `List.filter` of the passing
predicate and is a sublist of the input). -/
theorem C1_apply_filters_correct (df : List TripRecord) (s e : Int)
    (h1 h2 : Nat) (pl : List String) :
    apply_filters df s e h1 h2 pl
        = df.filter (fun r => decide (passesFilter s e h1 h2 pl r)) ∧
    (∀ r : TripRecord,
      r ∈ apply_filters df s e h1 h2 pl ↔ r ∈ df ∧ passesFilter s e h1 h2 pl r) ∧
    (apply_filters df s e h1 h2 pl).Sublist df := by
  refine ⟨List.filter_congr fun r _ => apply_mask_eq_decide s e h1 h2 pl r,
    ?_, List.filter_sublist df⟩
  intro r
  unfold apply_filters
  rw [List.mem_filter]
  exact and_congr_right fun _ => apply_mask_iff s e h1 h2 pl r

/-- C9: `apply_filters` is idempotent — filtering an already-filtered
view with the same criteria returns the identical view. -/
theorem C9_apply_filters_idempotent (df : List TripRecord) (s e : Int)
    (h1 h2 : Nat) (pl : List String) :
    apply_filters (apply_filters df s e h1 h2 pl) s e h1 h2 pl
      = apply_filters df s e h1 h2 pl := by
  unfold apply_filters
  exact List.filter_eq_self.mpr fun a ha => List.of_mem_filter ha

/-- C2: `apply_filters` with an empty `payment_labels` collection
returns exactly the same rows as `apply_filters` with `payment_labels`
equal to the full set of payment labels present in the data (empty set
means allow all, never match nothing). -/
theorem C2_empty_labels_allow_all (df : List TripRecord) (s e : Int)
    (h1 h2 : Nat) :
    apply_filters df s e h1 h2 [] = apply_filters df s e h1 h2 (labelsPresent df) := by
  unfold apply_filters
  refine List.filter_congr fun r hr => ?_
  have hmem : r.payment_label ∈ labelsPresent df :=
    List.mem_dedup.mpr (List.mem_map.mpr ⟨r, hr, rfl⟩)
  rw [apply_mask_eq_decide, apply_mask_eq_decide]
  refine decide_eq_decide.mpr ?_
  unfold passesFilter
  simp [hmem]

/-- A concrete raw trip row used to instantiate theorems with
hypotheses. -/
def sampleRaw : RawTrip :=
  { tpep_pickup_datetime := ⟨19723, 330⟩, tpep_dropoff_datetime := ⟨19723, 360⟩,
    payment_type := 1, PULocationID := 7, fare_amount := 40, total_amount := 45,
    trip_distance := 3, trip_duration_minutes := 30, pickup_hour := 5,
    pickup_day_of_week := "Monday" }

/-- A raw frame with all three required columns present. -/
def sampleFrame : RawFrame := ⟨true, true, true, [sampleRaw]⟩

/-- A raw frame whose `payment_type` column is missing. -/
def paymentlessFrame : RawFrame := ⟨true, true, false, [sampleRaw]⟩

/-- C3: the derived `payment_label` is the fixed lookup
`{1: Credit Card, 2: Cash, 3: No Charge, 4: Dispute, 0: Unknown,
6: Voided Trip}` applied to the payment code, is `"Other"` for any code
outside that table, and unmapped codes never make `load_trip_data`
fail: whenever the required columns are present it succeeds, labelling
every row through this lookup. -/
theorem C3_payment_label_table (c : Int) (f : RawFrame) :
    (payment_label_of 1 = "Credit Card" ∧ payment_label_of 2 = "Cash" ∧
     payment_label_of 3 = "No Charge" ∧ payment_label_of 4 = "Dispute" ∧
     payment_label_of 0 = "Unknown" ∧ payment_label_of 6 = "Voided Trip") ∧
    (c ∉ ([1, 2, 3, 4, 0, 6] : List Int) → payment_label_of c = "Other") ∧
    (f.hasPickupCol = true → f.hasDropoffCol = true → f.hasPaymentCol = true →
      ∃ out, load_trip_data f = .ok out ∧
        ∀ t ∈ out, t.payment_label = payment_label_of t.payment_type) := by
  refine ⟨by decide, ?_, ?_⟩
  · intro hc
    simp only [List.mem_cons, List.not_mem_nil, or_false, not_or] at hc
    obtain ⟨n1, n2, n3, n4, n0, n6⟩ := hc
    unfold payment_label_of PAYMENT_MAP
    simp [List.lookup, beq_eq_false_iff_ne.mpr n1, beq_eq_false_iff_ne.mpr n2,
      beq_eq_false_iff_ne.mpr n3, beq_eq_false_iff_ne.mpr n4,
      beq_eq_false_iff_ne.mpr n0, beq_eq_false_iff_ne.mpr n6]
  · intro hp hd hpay
    unfold load_trip_data
    rw [hp, hd, hpay]
    refine ⟨_, rfl, ?_⟩
    intro t ht
    rcases List.mem_map.mp ht with ⟨r, _, rfl⟩
    rfl

/-- C3 witness: the unmapped code 5 maps to `"Other"`, and on a
concrete full-column frame loading succeeds with every row labelled
through the lookup. -/
theorem C3_payment_label_table_witness :
    payment_label_of 5 = "Other" ∧
    ∃ out, load_trip_data sampleFrame = .ok out ∧
      ∀ t ∈ out, t.payment_label = payment_label_of t.payment_type :=
  ⟨(C3_payment_label_table 5 sampleFrame).2.1 (by decide),
   (C3_payment_label_table 5 sampleFrame).2.2 rfl rfl rfl⟩

/-- C8: `load_trip_data` fails with a missing-column schema error (and
produces no `.ok` partial result) whenever one of the required raw
columns is absent, and when all required columns are present it returns
exactly the input rows augmented with the derived `payment_label`. -/
theorem C8_load_trip_data_schema (f : RawFrame) :
    (¬(f.hasPickupCol = true ∧ f.hasDropoffCol = true ∧ f.hasPaymentCol = true) →
      ∃ c, load_trip_data f = .error (.missingColumn c)) ∧
    (f.hasPickupCol = true → f.hasDropoffCol = true → f.hasPaymentCol = true →
      load_trip_data f = .ok (f.rows.map fun r =>
        { toRawTrip := r, payment_label := payment_label_of r.payment_type }) ∧
      (f.rows.map fun r =>
        ({ toRawTrip := r, payment_label := payment_label_of r.payment_type }
          : TripRecord)).map TripRecord.toRawTrip = f.rows) := by
  constructor
  · intro hmiss
    unfold load_trip_data
    cases hp : f.hasPickupCol with
    | false => exact ⟨"tpep_pickup_datetime", rfl⟩
    | true =>
      cases hd : f.hasDropoffCol with
      | false => exact ⟨"tpep_dropoff_datetime", rfl⟩
      | true =>
        cases hpay : f.hasPaymentCol with
        | false => exact ⟨"payment_type", rfl⟩
        | true => exact absurd ⟨hp, hd, hpay⟩ hmiss
  · intro hp hd hpay
    unfold load_trip_data
    rw [hp, hd, hpay]
    refine ⟨rfl, ?_⟩
    rw [List.map_map]
    exact List.map_id f.rows

/-- C8 witness: a frame missing its `payment_type` column fails with a
missing-column error, and a concrete full-column frame loads to its
rows augmented with `payment_label`. -/
theorem C8_load_trip_data_schema_witness :
    (∃ c, load_trip_data paymentlessFrame = .error (.missingColumn c)) ∧
    load_trip_data sampleFrame = .ok (sampleFrame.rows.map fun r =>
      { toRawTrip := r, payment_label := payment_label_of r.payment_type }) :=
  ⟨(C8_load_trip_data_schema paymentlessFrame).1 (by decide),
   ((C8_load_trip_data_schema sampleFrame).2 rfl rfl rfl).1⟩

theorem groupKeys_perm_dedup [DecidableEq α] (le : α → α → Bool) (ks : List α) :
    (groupKeys le ks).Perm ks.dedup := sortBy_perm le ks.dedup

theorem groupKeys_nodup [DecidableEq α] (le : α → α → Bool) (ks : List α) :
    (groupKeys le ks).Nodup :=
  (groupKeys_perm_dedup le ks).nodup_iff.mpr (List.nodup_dedup ks)

theorem groupKeys_mem [DecidableEq α] (le : α → α → Bool) (ks : List α) (a : α) :
    a ∈ groupKeys le ks ↔ a ∈ ks :=
  ((groupKeys_perm_dedup le ks).mem_iff).trans List.mem_dedup

theorem map_fst_keyed (f : α → β) (keys : List α) :
    (keys.map fun k => (k, f k)).map Prod.fst = keys := by
  rw [List.map_map]
  exact List.map_id keys

theorem mem_keyed {f : α → β} {keys : List α} {p : α × β}
    (hp : p ∈ keys.map fun k => (k, f k)) : p.1 ∈ keys ∧ p.2 = f p.1 := by
  rcases List.mem_map.mp hp with ⟨k, hk, rfl⟩
  exact ⟨hk, rfl⟩

theorem decide_le_trans [LinearOrder α] (f : β → α) :
    ∀ a b c : β, decide (f a ≤ f b) = true → decide (f b ≤ f c) = true →
      decide (f a ≤ f c) = true := fun _ _ _ hab hbc =>
  decide_eq_true (le_trans (of_decide_eq_true hab) (of_decide_eq_true hbc))

theorem decide_le_total [LinearOrder α] (f : β → α) :
    ∀ a b : β, decide (f a ≤ f b) = true ∨ decide (f b ≤ f a) = true := fun a b =>
  (le_total (f a) (f b)).imp decide_eq_true decide_eq_true

/-- A concrete normalized trip used to instantiate theorems: the
hour-5, fare-40, credit-card trip of the spec's example scenario. -/
def sampleTrip : TripRecord :=
  { toRawTrip := sampleRaw, payment_label := "Credit Card" }

/-- Second example trip: hour 5, fare 20, cash. -/
def sampleTrip2 : TripRecord :=
  { toRawTrip := { sampleRaw with fare_amount := 20, payment_type := 2 },
    payment_label := "Cash" }

/-- Third example trip: hour 17, fare 15, credit card. -/
def sampleTrip3 : TripRecord :=
  { toRawTrip := { sampleRaw with pickup_hour := 17, fare_amount := 15 },
    payment_label := "Credit Card" }

/-- The spec's three-trip example filtered view. -/
def sampleView : List TripRecord := [sampleTrip, sampleTrip2, sampleTrip3]

/-- C5: `agg_fare_by_hour` has one row per distinct `pickup_hour`
present in the view: an hour is a key iff some trip in the view has it
(an hour with zero trips is absent, not zero-filled), the rows are
sorted strictly ascending by hour (so keys are pairwise distinct), and
the row for a present hour carries the mean `fare_amount` — sum over
count — of that hour's trips. -/
theorem C5_fare_by_hour (df : List TripRecord) :
    (∀ h : Nat, (h ∈ (agg_fare_by_hour df).map Prod.fst ↔
        h ∈ df.map fun r => r.pickup_hour)) ∧
    List.Pairwise (fun a b => a.1 < b.1) (agg_fare_by_hour df) ∧
    ∀ h : Nat,
      ((h, ((df.filter fun r => r.pickup_hour == h).map fun r => r.fare_amount).sum /
            ((df.filter fun r => r.pickup_hour == h).length : Rat))
          ∈ agg_fare_by_hour df
        ↔ h ∈ df.map fun r => r.pickup_hour) := by
  have hperm : (agg_fare_by_hour df).Perm
      ((groupKeys (fun a b => decide (a ≤ b)) (df.map fun r => r.pickup_hour)).map
        fun h =>
          (h, ((df.filter fun r => r.pickup_hour == h).map fun r => r.fare_amount).sum /
              ((df.filter fun r => r.pickup_hour == h).length : Rat))) :=
    sortBy_perm _ _
  have hfst : ((agg_fare_by_hour df).map Prod.fst).Perm
      (groupKeys (fun a b => decide (a ≤ b)) (df.map fun r => r.pickup_hour)) := by
    have := hperm.map Prod.fst
    rwa [map_fst_keyed] at this
  refine ⟨?_, ?_, ?_⟩
  · intro h
    rw [hfst.mem_iff, groupKeys_mem]
  · have hle : List.Pairwise (fun a b : Nat × Rat => decide (a.1 ≤ b.1) = true)
        (agg_fare_by_hour df) :=
      sortBy_pairwise _ (decide_le_trans Prod.fst) (decide_le_total Prod.fst) _
    have hnd : ((agg_fare_by_hour df).map Prod.fst).Nodup :=
      hfst.nodup_iff.mpr (groupKeys_nodup _ _)
    have hne : List.Pairwise (fun a b : Nat × Rat => a.1 ≠ b.1) (agg_fare_by_hour df) :=
      List.pairwise_map.mp hnd
    exact (hle.and hne).imp fun hab =>
      lt_of_le_of_ne (of_decide_eq_true hab.1) hab.2
  · intro h
    rw [hperm.mem_iff, ← groupKeys_mem (fun a b => decide (a ≤ b))
      (df.map fun r => r.pickup_hour) h]
    constructor
    · intro hmem
      exact ((mem_keyed hmem).1 : _)
    · intro hmem
      exact List.mem_map.mpr ⟨h, hmem, rfl⟩

/-- C10: `agg_payment_types` partitions the view — its keys are
pairwise distinct, a label keys a row iff some trip in the view carries
it, the row for a present label holds the number of trips with that
label, and the counts sum to the number of rows in the view. -/
theorem C10_payment_breakdown_partition (df : List TripRecord) :
    ((agg_payment_types df).map Prod.fst).Nodup ∧
    (∀ l : String, (l ∈ (agg_payment_types df).map Prod.fst ↔
        l ∈ df.map fun r => r.payment_label)) ∧
    (∀ l : String,
      ((l, df.countP fun r => r.payment_label == l) ∈ agg_payment_types df ↔
        l ∈ df.map fun r => r.payment_label)) ∧
    ((agg_payment_types df).map Prod.snd).sum = df.length := by
  have hperm : (agg_payment_types df).Perm
      ((groupKeys (fun a b => decide (a ≤ b)) (df.map fun r => r.payment_label)).map
        fun l => (l, df.countP fun r => r.payment_label == l)) :=
    sortBy_perm _ _
  have hfst : ((agg_payment_types df).map Prod.fst).Perm
      (groupKeys (fun a b => decide (a ≤ b)) (df.map fun r => r.payment_label)) := by
    have := hperm.map Prod.fst
    rwa [map_fst_keyed] at this
  refine ⟨hfst.nodup_iff.mpr (groupKeys_nodup _ _), ?_, ?_, ?_⟩
  · intro l
    rw [hfst.mem_iff, groupKeys_mem]
  · intro l
    rw [hperm.mem_iff, ← groupKeys_mem (fun a b => decide (a ≤ b))
      (df.map fun r => r.payment_label) l]
    constructor
    · intro hmem
      exact ((mem_keyed hmem).1 : _)
    · intro hmem
      exact List.mem_map.mpr ⟨l, hmem, rfl⟩
  · have hsnd := (hperm.map Prod.snd).sum_eq
    have h1 : List.map Prod.snd
        ((groupKeys (fun a b => decide (a ≤ b)) (df.map fun r => r.payment_label)).map
          fun l => (l, df.countP fun r => r.payment_label == l)) =
        (groupKeys (fun a b => decide (a ≤ b)) (df.map fun r => r.payment_label)).map
          fun l => df.countP fun r => r.payment_label == l := by
      rw [List.map_map]
      rfl
    have hkeys := (groupKeys_perm_dedup (fun a b => decide (a ≤ b))
      (df.map fun r => r.payment_label)).map
      fun l => df.countP fun r => r.payment_label == l
    rw [hsnd, h1, hkeys.sum_eq]
    have hcount : ∀ l : String,
        df.countP (fun r => r.payment_label == l) =
          (df.map fun r => r.payment_label).count l := by
      intro l
      rw [List.count_eq_countP, List.countP_map]
      rfl
    calc ((df.map fun r => r.payment_label).dedup.map
            fun l => df.countP fun r => r.payment_label == l).sum
        = ((df.map fun r => r.payment_label).dedup.map
            fun l => (df.map fun r => r.payment_label).count l).sum :=
          congrArg List.sum (List.map_congr_left fun l _ => hcount l)
      _ = (df.map fun r => r.payment_label).length :=
          List.sum_map_count_dedup_eq_length _
      _ = df.length := List.length_map df _

/-- A one-row zone lookup table used to instantiate theorems. -/
def sampleZones : List ZoneRow := [⟨7, "Midtown Center", "Manhattan"⟩]

/-- C4: `agg_top_zones` returns at most 10 rows, sorted descending by
trip count; every output row's count is the number of trips in the view
at some pickup location occurring in the view, left-joined to the zone
table — a matching zone row contributes its name and borough, and an
unmatched location id yields null zone and borough rather than an
error. -/
theorem C4_top_zones_shape (df : List TripRecord) (zones : List ZoneRow) :
    (agg_top_zones df zones).length ≤ 10 ∧
    List.Pairwise (fun a b => b.2.2 ≤ a.2.2) (agg_top_zones df zones) ∧
    ∀ row ∈ agg_top_zones df zones,
      ∃ loc : Int, (loc ∈ df.map fun r => r.PULocationID) ∧
        row.2.2 = (df.countP fun r => r.PULocationID == loc) ∧
        ((row.1 = none ∧ row.2.1 = none ∧ ∀ z ∈ zones, z.LocationID ≠ loc) ∨
         ∃ z ∈ zones, z.LocationID = loc ∧ row.1 = some z.zone_name ∧
           row.2.1 = some z.Borough) := by
  refine ⟨?_, ?_, ?_⟩
  · unfold agg_top_zones nlargest10
    rw [List.length_map]
    exact List.length_take_le 10 _
  · unfold agg_top_zones nlargest10
    rw [List.pairwise_map]
    refine List.Pairwise.sublist (List.take_sublist _ _) ?_
    have hsorted := sortBy_pairwise
      (fun a b : MergedZoneCount => decide (b.trip_count ≤ a.trip_count))
      (fun a b c hab hbc =>
        decide_eq_true (le_trans (of_decide_eq_true hbc) (of_decide_eq_true hab)))
      (fun a b => (le_total b.trip_count a.trip_count).imp decide_eq_true decide_eq_true)
      (merge_left (zone_counts df) zones)
    exact hsorted.imp fun hab => of_decide_eq_true hab
  · intro row hrow
    rcases List.mem_map.mp hrow with ⟨m, hm, rfl⟩
    have hm2 : m ∈ merge_left (zone_counts df) zones := by
      unfold nlargest10 at hm
      exact (sortBy_perm _ _).mem_iff.mp
        (List.Sublist.mem hm (List.take_sublist _ _))
    rcases List.mem_flatMap.mp hm2 with ⟨kn, hkn, hbranch⟩
    rcases List.mem_map.mp hkn with ⟨k, hk, rfl⟩
    have hkdf : k ∈ df.map fun r => r.PULocationID := (groupKeys_mem _ _ k).mp hk
    rcases hfz : zones.filter (fun z => z.LocationID == k) with _ | ⟨z0, zs⟩
    · rw [hfz] at hbranch
      simp only [List.mem_singleton] at hbranch
      subst hbranch
      refine ⟨k, hkdf, rfl, Or.inl ⟨rfl, rfl, ?_⟩⟩
      intro z hz hzeq
      have hzf : z ∈ zones.filter (fun z => z.LocationID == k) :=
        List.mem_filter.mpr ⟨hz, beq_iff_eq.mpr hzeq⟩
      rw [hfz] at hzf
      exact absurd hzf (List.not_mem_nil z)
    · rw [hfz] at hbranch
      rcases List.mem_map.mp hbranch with ⟨z, hzmem, rfl⟩
      have hzf : z ∈ zones.filter (fun z => z.LocationID == k) := by
        rw [hfz]; exact hzmem
      rcases List.mem_filter.mp hzf with ⟨hz, heq⟩
      exact ⟨k, hkdf, rfl, Or.inr ⟨z, hz, beq_iff_eq.mp heq, rfl, rfl⟩⟩

/-- C4 witness: on the three-trip view (all at location 7) and a
one-row zone table for location 7, the single output row is in the
output and satisfies the join-and-count property. -/
theorem C4_top_zones_shape_witness :
    (some "Midtown Center", some "Manhattan", (3 : Nat))
        ∈ agg_top_zones sampleView sampleZones ∧
    ∃ loc : Int, (loc ∈ sampleView.map fun r => r.PULocationID) ∧
      (some "Midtown Center", some "Manhattan", (3 : Nat)).2.2 =
        (sampleView.countP fun r => r.PULocationID == loc) ∧
      (((some "Midtown Center", some "Manhattan", (3 : Nat)).1 = none ∧
        (some "Midtown Center", some "Manhattan", (3 : Nat)).2.1 = none ∧
        ∀ z ∈ sampleZones, z.LocationID ≠ loc) ∨
       ∃ z ∈ sampleZones, z.LocationID = loc ∧
         (some "Midtown Center", some "Manhattan", (3 : Nat)).1 = some z.zone_name ∧
         (some "Midtown Center", some "Manhattan", (3 : Nat)).2.1 = some z.Borough) :=
  ⟨by decide, (C4_top_zones_shape sampleView sampleZones).2.2
    (some "Midtown Center", some "Manhattan", (3 : Nat)) (by decide)⟩

/-- C6: the distance-distribution view samples with a fixed seed: when
the filtered view exceeds 200000 rows the sample has exactly 200000
rows drawn without replacement from the view; when the view has at most
200000 rows the sample is the full view (as a permutation — every row
kept); and identical inputs give identical sampled subsets. -/
theorem C6_distance_sampling (df df2 : List TripRecord) :
    (200000 < df.length →
      (distance_sample df).length = 200000 ∧ (distance_sample df).Subperm df) ∧
    (df.length ≤ 200000 → (distance_sample df).Perm df) ∧
    (df = df2 → distance_sample df = distance_sample df2) := by
  refine ⟨?_, ?_, fun h => congrArg distance_sample h⟩
  · intro hbig
    constructor
    · unfold distance_sample df_sample
      rw [sampleGo_length]
      omega
    · exact sampleGo_subperm _ _ _
  · intro hsmall
    unfold distance_sample df_sample
    have hmin : min 200000 df.length = df.length := Nat.min_eq_right hsmall
    rw [hmin]
    exact sampleGo_perm_of_length _ _ _ rfl

/-- C6 witness: a 200001-row view samples down to exactly 200000 rows,
and a one-row view is kept whole. -/
theorem C6_distance_sampling_witness :
    (distance_sample (List.replicate 200001 sampleTrip)).length = 200000 ∧
    (distance_sample [sampleTrip]).Perm [sampleTrip] :=
  ⟨((C6_distance_sampling (List.replicate 200001 sampleTrip) []).1
      (by rw [List.length_replicate]; omega)).1,
   (C6_distance_sampling [sampleTrip] []).2.1 (by decide)⟩

/-- C7 counterexample: no aggregator fails on a zero-row filtered view;
each returns an empty summary table (a defined value), and there is no
`EmptyInputError` path in the code at all. -/
theorem C7_aggregators_empty_counterexample :
    agg_fare_by_hour [] = [] ∧ agg_top_zones [] [] = [] ∧
    agg_payment_types [] = [] ∧ agg_heatmap [] = [] ∧
    distance_sample [] = [] :=
  ⟨rfl, rfl, rfl, rfl, rfl⟩

/-- C7 amended: the orchestrating layer detects an empty filtered view,
skips all aggregators, and surfaces the "no data matches" outcome;
aggregators invoked on a zero-row view do not fail — each returns an
empty summary table. -/
theorem C7_empty_view_orchestration (df_full : List TripRecord)
    (zones : List ZoneRow) (s e : Int) (h1 h2 : Nat) (pl : List String) :
    (apply_filters df_full s e h1 h2 pl = [] →
      run_dashboard df_full zones s e h1 h2 pl = .noData) ∧
    (agg_fare_by_hour [] = [] ∧ agg_top_zones [] zones = [] ∧
     agg_payment_types [] = [] ∧ agg_heatmap [] = []) := by
  constructor
  · intro hemp
    unfold run_dashboard
    rw [hemp]
    rfl
  · exact ⟨rfl, rfl, rfl, rfl⟩

/-- C7 witness: on a one-trip set with a date window that excludes the
trip, the dashboard surfaces the no-data outcome. -/
theorem C7_empty_view_orchestration_witness :
    run_dashboard [sampleTrip] sampleZones 0 0 0 23 [] = .noData :=
  (C7_empty_view_orchestration [sampleTrip] sampleZones 0 0 0 23 []).1 (by decide)

end TaxiDashboard
